import Mathlib

/-!
Verification of the PyMDFS client and decoder layer.

Shallow embedding of `pymdfs/client.py`, `pymdfs/latlon.py`,
`pymdfs/diamond/diamond2.py`, `pymdfs/diamond/diamond4.py`,
`pymdfs/diamond/diamond5.py` and `pymdfs/mdfs/mdfs_grid_data.py`.
Python datetimes are modelled as integer epoch seconds, numeric tokens as
integers or rationals, byte buffers as lists of naturals below 256, and
fallible code by `Except`.
-/

/- ===================== Client fan-out (client.py, MdfsClient.sel) ===================== -/

/-- A Python argument that may be a scalar of type `α`, a list, or `None`;
models the untyped parameters of `MdfsClient.sel` (client.py lines 56-60). -/
inductive PyArg (α : Type) where
  | scalar (a : α)
  | lst (l : List (Option α))
  | pynone
deriving DecidableEq

/-- Normalisation `x = [x] if isinstance(x, T) or x is None else x`
applied by `MdfsClient.sel` to inittime, fh, varname and leadtime. -/
def normArg : PyArg α → List (Option α)
  | .scalar a => [some a]
  | .pynone => [Option.none]
  | .lst l => l

/-- The datasource argument of `MdfsClient.sel`: a string or a list of strings
(`datasource = [datasource] if isinstance(datasource, str) else datasource`). -/
inductive PyStrArg where
  | scalar (s : String)
  | lst (l : List String)
deriving DecidableEq

/-- Normalisation of the datasource argument (client.py line 56). -/
def normSrc : PyStrArg → List String
  | .scalar s => [s]
  | .lst l => l

/-- One step of `itertools.product`: all pairs of `xs` and `ys`, with the
second component varying fastest. -/
def prodList (xs : List α) (ys : List β) : List (α × β) :=
  xs.bind fun x => ys.map fun y => (x, y)

/-- `requests = list(product(datasource, inittime, fh, varname, leadtime))`
(client.py line 61); `itertools.product` of five lists is the right-nested
iteration with the last list varying fastest. -/
def selRequests (ds : List α₁) (its : List α₂) (fhs : List α₃)
    (vns : List α₄) (lts : List α₅) : List (α₁ × α₂ × α₃ × α₄ × α₅) :=
  prodList ds (prodList its (prodList fhs (prodList vns lts)))

/-- The worker closure `fetch` of `MdfsClient.sel` (client.py lines 63-68):
runs the leaf resolution `self._sel(*request, **kwargs)` and converts any
raised exception into the absent result `None`. The leaf resolution itself is
abstracted as an oracle `eval` from a request to a result or an exception. -/
def fetchLeaf (eval : ρ → Except ε α) (r : ρ) : Option α :=
  (eval r).toOption

/-- Result of the non-merged path of `MdfsClient.sel`: either the single
element `datas[0]` or the full list `datas`. -/
inductive SelOut (α : Type) where
  | one (a : Option α)
  | many (l : List (Option α))
deriving DecidableEq

/-- `datas = list(map(fetch, requests))` followed by the total-failure check
and the non-merged return (client.py lines 70-73 and 92):
raise `Exception("all requests failed")` iff every entry of `datas` is `None`,
otherwise return `datas` when more than one request exists and `datas[0]`
otherwise. The `merge=True` branch is not modelled. -/
def selCollect (eval : ρ → Except ε α) (reqs : List ρ) : Except String (SelOut α) :=
  let datas := reqs.map (fetchLeaf eval)
  if datas.all fun i => i.isNone then .error "all requests failed"
  else if 1 < reqs.length then .ok (.many datas) else .ok (.one datas.headI)

/-- The request list built by `MdfsClient.sel` after normalisation. -/
def selRequestsOf (dsrc : PyStrArg) (it fh : PyArg Int) (vn : PyArg String)
    (lt : PyArg Int) : List (String × Option Int × Option Int × Option String × Option Int) :=
  selRequests (normSrc dsrc) (normArg it) (normArg fh) (normArg vn) (normArg lt)

/-- The `datas` list built by `MdfsClient.sel` over its request list. -/
def selDatasOf (eval : (String × Option Int × Option Int × Option String × Option Int) → Except ε α)
    (dsrc : PyStrArg) (it fh : PyArg Int) (vn : PyArg String) (lt : PyArg Int) :
    List (Option α) :=
  (selRequestsOf dsrc it fh vn lt).map (fetchLeaf eval)

/-- `MdfsClient.sel` on the non-merged path (client.py lines 56-73 and 92),
with the per-leaf work `self._sel` abstracted to the oracle `eval`. -/
def MdfsClient.sel
    (eval : (String × Option Int × Option Int × Option String × Option Int) → Except ε α)
    (dsrc : PyStrArg) (it fh : PyArg Int) (vn : PyArg String) (lt : PyArg Int) :
    Except String (SelOut α) :=
  selCollect eval (selRequestsOf dsrc it fh vn lt)

theorem prodList_nil (ys : List β) : prodList ([] : List α) ys = [] := rfl

theorem prodList_cons (x : α) (xs : List α) (ys : List β) :
    prodList (x :: xs) ys = ys.map (fun y => (x, y)) ++ prodList xs ys := by
  simp [prodList]

theorem prodList_length (xs : List α) (ys : List β) :
    (prodList xs ys).length = xs.length * ys.length := by
  induction xs with
  | nil => simp [prodList]
  | cons x xs ih => simp [prodList_cons, ih, Nat.succ_mul, Nat.add_comm]

theorem prodList_get (xs : List α) (ys : List β) (i j : Nat)
    (hi : i < xs.length) (hj : j < ys.length)
    (h : i * ys.length + j < (prodList xs ys).length) :
    (prodList xs ys).get ⟨i * ys.length + j, h⟩ =
      (xs.get ⟨i, hi⟩, ys.get ⟨j, hj⟩) := by
  induction xs generalizing i with
  | nil => simp at hi
  | cons x xs ih =>
    rw [List.get_eq_getElem]
    cases i with
    | zero =>
      simp only [prodList_cons, Nat.zero_mul, Nat.zero_add]
      rw [List.getElem_append_left (by simpa using hj)]
      simp
    | succ i =>
      have hi' : i < xs.length := Nat.lt_of_succ_lt_succ hi
      have hylen : ys.length ≤ (i + 1) * ys.length + j := by
        calc ys.length ≤ (i + 1) * ys.length :=
              Nat.le_mul_of_pos_left _ (Nat.succ_pos i)
          _ ≤ (i + 1) * ys.length + j := Nat.le_add_right _ _
      have hlt : i * ys.length + j < (prodList xs ys).length := by
        rw [prodList_length]
        calc i * ys.length + j < i * ys.length + ys.length := Nat.add_lt_add_left hj _
          _ = (i + 1) * ys.length := (Nat.succ_mul i _).symm
          _ ≤ xs.length * ys.length := Nat.mul_le_mul_right _ hi'
      simp only [prodList_cons]
      rw [List.getElem_append_right (by simpa using hylen)]
      have hidx : (i + 1) * ys.length + j - (List.map (fun y => (x, y)) ys).length
          = i * ys.length + j := by
        simp only [List.length_map, Nat.add_mul, Nat.one_mul]
        omega
      simp only [hidx]
      have h2 := ih i hi' hlt
      rw [List.get_eq_getElem] at h2
      exact h2

theorem flatIdx_lt {i j a b : Nat} (hi : i < a) (hj : j < b) : i * b + j < a * b := by
  calc i * b + j < i * b + b := Nat.add_lt_add_left hj _
    _ = (i + 1) * b := (Nat.succ_mul i b).symm
    _ ≤ a * b := Nat.mul_le_mul_right b hi

theorem selRequests_length (ds : List α₁) (its : List α₂) (fhs : List α₃)
    (vns : List α₄) (lts : List α₅) :
    (selRequests ds its fhs vns lts).length =
      ds.length * its.length * fhs.length * vns.length * lts.length := by
  simp only [selRequests, prodList_length]
  ring

theorem selRequests_get (ds : List α₁) (its : List α₂) (fhs : List α₃)
    (vns : List α₄) (lts : List α₅) (i1 i2 i3 i4 i5 : Nat)
    (h1 : i1 < ds.length) (h2 : i2 < its.length) (h3 : i3 < fhs.length)
    (h4 : i4 < vns.length) (h5 : i5 < lts.length)
    (h : (((i1 * its.length + i2) * fhs.length + i3) * vns.length + i4) * lts.length + i5
        < (selRequests ds its fhs vns lts).length) :
    (selRequests ds its fhs vns lts).get
        ⟨(((i1 * its.length + i2) * fhs.length + i3) * vns.length + i4) * lts.length + i5, h⟩ =
      (ds.get ⟨i1, h1⟩, its.get ⟨i2, h2⟩, fhs.get ⟨i3, h3⟩,
        vns.get ⟨i4, h4⟩, lts.get ⟨i5, h5⟩) := by
  have b4 : i4 * lts.length + i5 < (prodList vns lts).length := by
    rw [prodList_length]; exact flatIdx_lt h4 h5
  have b3 : i3 * (prodList vns lts).length + (i4 * lts.length + i5)
      < (prodList fhs (prodList vns lts)).length := by
    rw [prodList_length fhs (prodList vns lts)]; exact flatIdx_lt h3 b4
  have b2 : i2 * (prodList fhs (prodList vns lts)).length
        + (i3 * (prodList vns lts).length + (i4 * lts.length + i5))
      < (prodList its (prodList fhs (prodList vns lts))).length := by
    rw [prodList_length its (prodList fhs (prodList vns lts))]; exact flatIdx_lt h2 b3
  have b1 : i1 * (prodList its (prodList fhs (prodList vns lts))).length
        + (i2 * (prodList fhs (prodList vns lts)).length
          + (i3 * (prodList vns lts).length + (i4 * lts.length + i5)))
      < (selRequests ds its fhs vns lts).length := by
    simp only [selRequests]
    rw [prodList_length ds (prodList its (prodList fhs (prodList vns lts)))]
    exact flatIdx_lt h1 b2
  have hidx : (((i1 * its.length + i2) * fhs.length + i3) * vns.length + i4) * lts.length + i5
      = i1 * (prodList its (prodList fhs (prodList vns lts))).length
        + (i2 * (prodList fhs (prodList vns lts)).length
          + (i3 * (prodList vns lts).length + (i4 * lts.length + i5))) := by
    simp only [prodList_length]
    ring
  simp only [selRequests] at *
  simp only [hidx]
  rw [prodList_get ds _ i1 _ h1 b2 b1, prodList_get its _ i2 _ h2 b3 b2,
    prodList_get fhs _ i3 _ h3 b4 b3, prodList_get vns lts i4 i5 h4 h5 b4]

theorem selCollect_error_iff (eval : ρ → Except ε α) (reqs : List ρ) :
    (selCollect eval reqs = .error "all requests failed") ↔
      ∀ o ∈ reqs.map (fetchLeaf eval), o = Option.none := by
  unfold selCollect
  by_cases hall : ((reqs.map (fetchLeaf eval)).all fun i => i.isNone) = true
  · simp only [hall, if_true]
    simp only [List.all_eq_true, Option.isNone_iff_eq_none] at hall
    exact iff_of_true trivial hall
  · simp only [hall]
    rw [if_neg (by simp [hall])]
    constructor
    · intro hcontra
      split at hcontra <;> simp at hcontra
    · intro hforall
      exact absurd (by simpa [List.all_eq_true, Option.isNone_iff_eq_none] using hforall) hall

/-- Claim C1: in the fan-out executed by `MdfsClient.sel`, each leaf request's
exception is caught at that leaf's boundary and recorded as the absent result
`None`; entry `i` of `datas` depends only on the oracle's verdict on request
`i`, so one leaf's failure never aborts or changes a sibling leaf; and `sel`
raises `Exception("all requests failed")` if and only if every leaf produced
an absent result. -/
theorem sel_leaf_isolation_and_total_failure
    (eval : (String × Option Int × Option Int × Option String × Option Int) → Except ε α)
    (dsrc : PyStrArg) (it fh : PyArg Int) (vn : PyArg String) (lt : PyArg Int) :
    ((selDatasOf eval dsrc it fh vn lt).length = (selRequestsOf dsrc it fh vn lt).length)
    ∧ (∀ i (hi : i < (selRequestsOf dsrc it fh vn lt).length)
         (hd : i < (selDatasOf eval dsrc it fh vn lt).length),
        (selDatasOf eval dsrc it fh vn lt).get ⟨i, hd⟩ =
          (eval ((selRequestsOf dsrc it fh vn lt).get ⟨i, hi⟩)).toOption)
    ∧ ((MdfsClient.sel eval dsrc it fh vn lt = .error "all requests failed") ↔
        ∀ o ∈ selDatasOf eval dsrc it fh vn lt, o = Option.none) := by
  refine ⟨by simp [selDatasOf], fun i hi hd => ?_, ?_⟩
  · simp [selDatasOf, fetchLeaf]
  · exact selCollect_error_iff eval (selRequestsOf dsrc it fh vn lt)

/-- Oracle used by the concrete fan-out witnesses: any request whose
datasource is "bad" raises, every other request decodes to the value 7. -/
def evalW : (String × Option Int × Option Int × Option String × Option Int) → Except String Nat :=
  fun r => if r.1 = "bad" then .error "boom" else .ok 7

/-- Witness for C1: a two-leaf fan-out in which the second leaf raises; the
failing leaf is recorded as `None` while its sibling still yields `some 7`. -/
theorem sel_leaf_isolation_witness :
    (selDatasOf evalW (PyStrArg.lst ["good", "bad"]) (PyArg.scalar 0)
        PyArg.pynone PyArg.pynone PyArg.pynone).get ⟨1, by decide⟩ = Option.none
    ∧ (selDatasOf evalW (PyStrArg.lst ["good", "bad"]) (PyArg.scalar 0)
        PyArg.pynone PyArg.pynone PyArg.pynone).get ⟨0, by decide⟩ = some 7 := by
  have h := sel_leaf_isolation_and_total_failure evalW (PyStrArg.lst ["good", "bad"])
    (PyArg.scalar 0) PyArg.pynone PyArg.pynone PyArg.pynone
  refine ⟨?_, ?_⟩
  · rw [h.2.1 1 (by decide) (by decide)]; rfl
  · rw [h.2.1 0 (by decide) (by decide)]; rfl

/-- Claim C2: after normalisation of the five dimensions to lists, the leaf
requests of `MdfsClient.sel` are exactly the Cartesian product enumerated in
the order (datasource, inittime, fh, varname, leadtime) with the last
dimension varying fastest; the non-merged result list has the same length and
per-index correspondence to that enumeration; and when exactly one leaf
request exists the single result `datas[0]` is returned unwrapped. -/
theorem sel_cartesian_product_order
    (eval : (String × Option Int × Option Int × Option String × Option Int) → Except ε α)
    (dsrc : PyStrArg) (it fh : PyArg Int) (vn : PyArg String) (lt : PyArg Int) :
    ((selRequestsOf dsrc it fh vn lt).length =
        (normSrc dsrc).length * (normArg it).length * (normArg fh).length
          * (normArg vn).length * (normArg lt).length)
    ∧ (∀ i1 i2 i3 i4 i5 (h1 : i1 < (normSrc dsrc).length) (h2 : i2 < (normArg it).length)
         (h3 : i3 < (normArg fh).length) (h4 : i4 < (normArg vn).length)
         (h5 : i5 < (normArg lt).length)
         (h : (((i1 * (normArg it).length + i2) * (normArg fh).length + i3)
                * (normArg vn).length + i4) * (normArg lt).length + i5
              < (selRequestsOf dsrc it fh vn lt).length),
        (selRequestsOf dsrc it fh vn lt).get
            ⟨(((i1 * (normArg it).length + i2) * (normArg fh).length + i3)
                * (normArg vn).length + i4) * (normArg lt).length + i5, h⟩ =
          ((normSrc dsrc).get ⟨i1, h1⟩, (normArg it).get ⟨i2, h2⟩,
            (normArg fh).get ⟨i3, h3⟩, (normArg vn).get ⟨i4, h4⟩,
            (normArg lt).get ⟨i5, h5⟩))
    ∧ ((selDatasOf eval dsrc it fh vn lt).length = (selRequestsOf dsrc it fh vn lt).length)
    ∧ (∀ i (hi : i < (selRequestsOf dsrc it fh vn lt).length)
         (hd : i < (selDatasOf eval dsrc it fh vn lt).length),
        (selDatasOf eval dsrc it fh vn lt).get ⟨i, hd⟩ =
          fetchLeaf eval ((selRequestsOf dsrc it fh vn lt).get ⟨i, hi⟩))
    ∧ (1 < (selRequestsOf dsrc it fh vn lt).length →
        ¬(∀ o ∈ selDatasOf eval dsrc it fh vn lt, o = Option.none) →
        MdfsClient.sel eval dsrc it fh vn lt = .ok (.many (selDatasOf eval dsrc it fh vn lt)))
    ∧ ((selRequestsOf dsrc it fh vn lt).length = 1 →
        ¬(∀ o ∈ selDatasOf eval dsrc it fh vn lt, o = Option.none) →
        MdfsClient.sel eval dsrc it fh vn lt =
          .ok (.one ((selDatasOf eval dsrc it fh vn lt).headI))) := by
  have hall : ∀ (hne : ¬(∀ o ∈ selDatasOf eval dsrc it fh vn lt, o = Option.none)),
      ((selRequestsOf dsrc it fh vn lt).map (fetchLeaf eval)).all (fun i => i.isNone) = false := by
    intro hne
    rw [Bool.eq_false_iff]
    intro hcontra
    exact hne (by simpa [selDatasOf, List.all_eq_true, Option.isNone_iff_eq_none] using hcontra)
  refine ⟨selRequests_length _ _ _ _ _,
    fun i1 i2 i3 i4 i5 h1 h2 h3 h4 h5 h => selRequests_get _ _ _ _ _ _ _ _ _ _ h1 h2 h3 h4 h5 h,
    by simp [selDatasOf], fun i hi hd => by simp [selDatasOf], ?_, ?_⟩
  · intro hlen hne
    unfold MdfsClient.sel selCollect
    simp only [hall hne, Bool.false_eq_true, if_false, hlen, if_true]
    rfl
  · intro hlen hne
    unfold MdfsClient.sel selCollect
    simp only [hall hne, Bool.false_eq_true, if_false, hlen]
    norm_num
    rfl

/-- Witness for C2: datasource "a", inittimes [t1, t2] (epoch seconds 0 and
3600), forecast hours [0, 24], one variable "T": four leaves in odometer
order, leaf (t1, 24) at flat index 1, and the unwrap case on a single leaf. -/
theorem sel_cartesian_product_order_witness :
    (selRequestsOf (PyStrArg.scalar "a") (PyArg.lst [some 0, some 3600])
        (PyArg.lst [some 0, some 24]) (PyArg.scalar "T") PyArg.pynone).length = 4
    ∧ (selRequestsOf (PyStrArg.scalar "a") (PyArg.lst [some 0, some 3600])
        (PyArg.lst [some 0, some 24]) (PyArg.scalar "T") PyArg.pynone).get ⟨1, by decide⟩ =
      ("a", some 0, some 24, some "T", Option.none)
    ∧ MdfsClient.sel evalW (PyStrArg.scalar "a") (PyArg.scalar 0) PyArg.pynone
        (PyArg.scalar "T") PyArg.pynone =
      .ok (.one (some 7)) := by
  have h := sel_cartesian_product_order evalW (PyStrArg.scalar "a")
    (PyArg.lst [some 0, some 3600]) (PyArg.lst [some 0, some 24])
    (PyArg.scalar "T") PyArg.pynone
  have h2 := sel_cartesian_product_order evalW (PyStrArg.scalar "a")
    (PyArg.scalar 0) PyArg.pynone (PyArg.scalar "T") PyArg.pynone
  refine ⟨by rw [h.1]; rfl, ?_, ?_⟩
  · have hg := h.2.1 0 0 1 0 0 (by decide) (by decide) (by decide) (by decide) (by decide)
      (by decide)
    simpa using hg
  · have hu := h2.2.2.2.2.2 (by decide) (by decide)
    rw [hu]
    rfl

/- ===================== Leaf time resolution (client.py, MdfsClient._sel) ===================== -/

/-- Python `int()` truncation toward zero of a rational. -/
def pyInt (q : ℚ) : ℤ :=
  if 0 ≤ q then ⌊q⌋ else ⌈q⌉

/-- Lines 115-124 of client.py (`MdfsClient._sel`): the assertion that at
least one of inittime and leadtime is given, derivation of a missing forecast
hour (`int((leadtime - inittime).total_seconds() / 3600.)` when both are
given, else 0), and derivation of a missing inittime
(`inittime = leadtime - timedelta(hours=fh)`). Datetimes are epoch seconds.
The returned triple is the state of the locals (inittime, fh, leadtime) after
line 124; the code never assigns to leadtime. -/
def resolveTimes (inittime fh leadtime : Option ℤ) : Except String (ℤ × ℤ × Option ℤ) :=
  if inittime = Option.none ∧ leadtime = Option.none then .error "AssertionError"
  else
    let fh' : ℤ :=
      match fh with
      | some f => f
      | Option.none =>
        match leadtime, inittime with
        | some l, some i => pyInt (((l - i : ℤ) : ℚ) / 3600)
        | _, _ => 0
    match inittime with
    | some i => .ok (i, fh', leadtime)
    | Option.none =>
      match leadtime with
      | some l => .ok (l - fh' * 3600, fh', leadtime)
      | Option.none => .error "AssertionError"

/-- Counterexample to claim C6: with inittime given (epoch second 0), fh
given (6) and leadtime absent, `MdfsClient._sel` leaves the leadtime local
unresolved (`None`); the claim would require it to be resolved to
inittime plus fh hours, i.e. `some 21600`. -/
theorem resolveTimes_leadtime_unresolved :
    resolveTimes (some 0) (some 6) Option.none = .ok (0, 6, Option.none)
    ∧ (Option.none : Option ℤ) ≠ some (0 + 6 * 3600) := by
  constructor
  · rfl
  · decide

/-- Claim C6 as amended: for each fan-out leaf of `MdfsClient._sel`, with
both inittime and leadtime absent the assertion fails; an absent fh resolves
to (leadtime − inittime) in truncated whole hours when both are given and to
0 when exactly one is given; an absent inittime resolves to leadtime minus fh
hours; a present leadtime is passed through and an absent leadtime is left
unresolved (the third component of every `.ok` result below equals the
leadtime argument). -/
theorem resolveTimes_resolution (i l f : ℤ) (fh : Option ℤ) :
    resolveTimes Option.none fh Option.none = .error "AssertionError"
    ∧ resolveTimes (some i) Option.none (some l) =
        .ok (i, pyInt (((l - i : ℤ) : ℚ) / 3600), some l)
    ∧ resolveTimes (some i) (some f) (some l) = .ok (i, f, some l)
    ∧ resolveTimes (some i) (some f) Option.none = .ok (i, f, Option.none)
    ∧ resolveTimes Option.none (some f) (some l) = .ok (l - f * 3600, f, some l)
    ∧ resolveTimes (some i) Option.none Option.none = .ok (i, 0, Option.none)
    ∧ resolveTimes Option.none Option.none (some l) = .ok (l - 0 * 3600, 0, some l) := by
  refine ⟨rfl, ?_, ?_, ?_, ?_, ?_, ?_⟩ <;> simp [resolveTimes]

/- ===================== Diamond2 flat-matrix body (diamond/diamond2.py) ===================== -/

/-- Header of a Micaps Diamond 2 file (diamond2.py, `Diamond2Head`):
9 positional tokens cast to their declared field types. -/
structure Diamond2Head where
  diamond : String
  dtype : Int
  description : String
  year : Int
  month : Int
  day : Int
  hour : Int
  level : Int
  nrec : Nat
deriving DecidableEq

/-- `reshape((nrec, ncols))` of a flat token list: `nrec` consecutive rows of
`ncols` tokens each. -/
def reshapeRows (nrec ncols : Nat) (xs : List α) : List (List α) :=
  match nrec with
  | 0 => []
  | r + 1 => xs.take ncols :: reshapeRows r ncols (xs.drop ncols)

/-- Body phase of `Diamond2.read` (diamond2.py lines 136-139): with `R` the
declared record count `head.nrec` and `body` the tokens remaining after the
9 header tokens, compute `ncols = len(body) / R` (a `ZeroDivisionError` when
`R = 0`), fail when the division is not integral, and otherwise reshape the
body into an `R × ncols` matrix in stream order. Token values are abstract;
`np.asfarray` conversion is the identity on them. -/
def diamond2Body (R : Nat) (body : List α) : Except String (List (List α)) :=
  if R = 0 then .error "ZeroDivisionError"
  else if body.length % R ≠ 0 then
    .error "Data can't be splitted into integer columns."
  else .ok (reshapeRows R (body.length / R) body)

theorem reshapeRows_length (nrec ncols : Nat) (xs : List α) :
    (reshapeRows nrec ncols xs).length = nrec := by
  induction nrec generalizing xs with
  | zero => rfl
  | succ r ih => simp [reshapeRows, ih]

theorem reshapeRows_row_length (nrec ncols : Nat) (xs : List α)
    (hx : xs.length = nrec * ncols) :
    ∀ row ∈ reshapeRows nrec ncols xs, row.length = ncols := by
  induction nrec generalizing xs with
  | zero => simp [reshapeRows]
  | succ r ih =>
    intro row hrow
    simp only [reshapeRows, List.mem_cons] at hrow
    rcases hrow with hrow | hrow
    · subst hrow
      simp only [List.length_take, hx, Nat.succ_mul]
      omega
    · exact ih (xs.drop ncols) (by simp [hx, Nat.succ_mul]) row hrow

theorem reshapeRows_flatten (nrec ncols : Nat) (xs : List α)
    (hx : xs.length = nrec * ncols) :
    (reshapeRows nrec ncols xs).flatten = xs := by
  induction nrec generalizing xs with
  | zero =>
    simp only [Nat.zero_mul] at hx
    simp [reshapeRows, List.length_eq_zero.mp hx]
  | succ r ih =>
    simp only [reshapeRows, List.flatten_cons]
    rw [ih (xs.drop ncols) (by simp [hx, Nat.succ_mul])]
    exact List.take_append_drop ncols xs

/-- Claim C4: for a Diamond flat-matrix body (`Diamond2.read`) with declared
record count `R ≥ 1` and `T` body tokens after the header, decoding fails if
and only if `T mod R ≠ 0`, and otherwise produces exactly an `R × (T / R)`
matrix containing the body tokens in stream order. -/
theorem diamond2Body_shape (R : Nat) (body : List α) (hR : 1 ≤ R) :
    ((∃ M, diamond2Body R body = .ok M) ↔ body.length % R = 0)
    ∧ (∀ M, diamond2Body R body = .ok M →
        M.length = R
        ∧ (∀ row ∈ M, row.length = body.length / R)
        ∧ M.flatten = body) := by
  have hR0 : R ≠ 0 := Nat.one_le_iff_ne_zero.mp hR
  have heq : body.length % R = 0 →
      diamond2Body R body = .ok (reshapeRows R (body.length / R) body) := by
    intro hmod
    simp [diamond2Body, hR0, hmod]
  have hbad : body.length % R ≠ 0 →
      diamond2Body R body = .error "Data can't be splitted into integer columns." := by
    intro hmod
    simp [diamond2Body, hR0, hmod]
  constructor
  · constructor
    · rintro ⟨M, hM⟩
      by_contra hmod
      rw [hbad hmod] at hM
      exact Except.noConfusion hM
    · intro hmod
      exact ⟨_, heq hmod⟩
  · intro M hM
    by_cases hmod : body.length % R = 0
    · rw [heq hmod] at hM
      injection hM with hM2
      have hlen : body.length = R * (body.length / R) :=
        (Nat.div_mul_cancel (Nat.dvd_of_mod_eq_zero hmod)).symm.trans (Nat.mul_comm _ _)
      subst hM2
      exact ⟨reshapeRows_length _ _ _, reshapeRows_row_length _ _ _ hlen,
        reshapeRows_flatten _ _ _ hlen⟩
    · rw [hbad hmod] at hM
      exact Except.noConfusion hM

/-- Witness for C4: a body of 6 tokens with R = 2 decodes to the 2 × 3 matrix
in stream order, and a body of 5 tokens with R = 2 fails. -/
theorem diamond2Body_shape_witness :
    (1 ≤ 2 ∧ ([10, 20, 30, 40, 50, 60] : List Int).length % 2 = 0)
    ∧ diamond2Body 2 ([10, 20, 30, 40, 50, 60] : List Int) = .ok [[10, 20, 30], [40, 50, 60]]
    ∧ ¬∃ M, diamond2Body 2 ([10, 20, 30, 40, 50] : List Int) = .ok M := by
  have h := diamond2Body_shape 2 ([10, 20, 30, 40, 50, 60] : List Int) (by decide)
  have h5 := diamond2Body_shape 2 ([10, 20, 30, 40, 50] : List Int) (by decide)
  refine ⟨⟨by decide, by decide⟩, by rfl, ?_⟩
  intro hex
  have := h5.1.mp hex
  simp at this

/- ===================== Filename wildcard inference (client.py, guess_filename_wildcard) ===================== -/

/-- Atoms of the date-shape regular expressions used by
`MdfsClient.guess_filename_wildcard`: a run of `n` decimal digits, a literal
dot, the class `[._]`, and the end anchor `$`. -/
inductive PatTok where
  | digits (n : Nat)
  | dot
  | sepUnder
  | eos
deriving DecidableEq

/-- Matching a shape at the head of a character list; a trailing unmatched
suffix is allowed (as with `re.match` without an end anchor). -/
def patMatch : List PatTok → List Char → Bool
  | [], _ => true
  | .eos :: _, t => t.isEmpty
  | .digits n :: ps, t =>
    decide ((t.take n).length = n) && (t.take n).all Char.isDigit && patMatch ps (t.drop n)
  | .dot :: ps, t =>
    match t with
    | c :: t2 => c == '.' && patMatch ps t2
    | [] => false
  | .sepUnder :: ps, t =>
    match t with
    | c :: t2 => (c == '.' || c == '_') && patMatch ps t2
    | [] => false

/-- `re.match(".*" + shape, s)` succeeds iff the shape matches at some
position of `s` (the leading greedy `.*` frees the starting position; MDFS
filenames contain no newline, so the newline exclusion of `.` is moot). -/
def hasShape (s : String) (ps : List PatTok) : Bool :=
  s.data.tails.any fun t => patMatch ps t

/-- Shape 1, `.*(\d{14})\.(\d{3})`: 14-digit timestamp, dot, 3-digit suffix. -/
def shape14dot3 : List PatTok := [.digits 14, .dot, .digits 3]

/-- Shape 2, `.*(\d{8})\.(\d{3})$`: 8 digits, dot, 3 digits at end. -/
def shape8dot3end : List PatTok := [.digits 8, .dot, .digits 3, .eos]

/-- Shape 3, `.*(\d{8})([._])(\d{6}).*`: 8 digits, separator, 6 digits. -/
def shape8sep6 : List PatTok := [.digits 8, .sepUnder, .digits 6]

/-- Shape 4, `.*(\d{8})([._])(\d{4}).*`: 8 digits, separator, 4 digits. -/
def shape8sep4 : List PatTok := [.digits 8, .sepUnder, .digits 4]

/-- Shape 5, `.*(\d{14}).*`: a bare 14-digit timestamp. -/
def shape14 : List PatTok := [.digits 14]

/-- Result of `guess_filename_wildcard`: a literal template string (shapes 1
and 2) or, for shapes 3-5, the `re.sub` rewrite of the latest filename,
recorded as the substitution kind applied to that filename. -/
inductive Wildcard where
  | tpl (s : String)
  | sub8sep6 (latest : String)
  | sub8sep4 (latest : String)
  | sub14 (latest : String)
deriving DecidableEq

/-- The five-way priority cascade of `MdfsClient.guess_filename_wildcard`
(client.py lines 182-197) applied to the latest filename; no match raises
`NotImplementedError`. -/
def guessWildcardOf (latest : String) : Except String Wildcard :=
  if hasShape latest shape14dot3 then
    .ok (.tpl "\x7binittime:%Y%m%d%H%M%S\x7d.\x7bfh:03d\x7d")
  else if hasShape latest shape8dot3end then
    .ok (.tpl "\x7binittime:%y%m%d%H\x7d.\x7bfh:03d\x7d")
  else if hasShape latest shape8sep6 then .ok (.sub8sep6 latest)
  else if hasShape latest shape8sep4 then .ok (.sub8sep4 latest)
  else if hasShape latest shape14 then .ok (.sub14 latest)
  else .error "NotImplementedError"

/-- `sorted(list(filelist.resultMap.keys()))[-1]` (client.py line 181): the
lexicographically greatest listing key; `IndexError` on an empty listing. -/
def latestFilename (keys : List String) : Except String String :=
  match keys with
  | [] => .error "IndexError"
  | k :: ks => .ok (ks.foldl (fun a b => if a < b then b else a) k)

/-- `MdfsClient.guess_filename_wildcard` (client.py lines 179-199) over the
keys of the directory listing. -/
def guess_filename_wildcard (keys : List String) : Except String Wildcard :=
  match latestFilename keys with
  | .error e => .error e
  | .ok latest => guessWildcardOf latest

/-- Claim C3: `guess_filename_wildcard` tries the five date-pattern shapes in
fixed priority order against the lexicographically latest listing key and the
first matching shape determines the template; "20240101080000.024" also
satisfies the looser shapes 2 and 5 yet resolves to the 14-digit+3-digit
template; when no shape matches the call fails. -/
theorem guess_wildcard_priority (s : String) :
    (hasShape s shape14dot3 = true →
      guessWildcardOf s = .ok (.tpl "\x7binittime:%Y%m%d%H%M%S\x7d.\x7bfh:03d\x7d"))
    ∧ (hasShape s shape14dot3 = false → hasShape s shape8dot3end = true →
      guessWildcardOf s = .ok (.tpl "\x7binittime:%y%m%d%H\x7d.\x7bfh:03d\x7d"))
    ∧ (hasShape s shape14dot3 = false → hasShape s shape8dot3end = false →
        hasShape s shape8sep6 = true → guessWildcardOf s = .ok (.sub8sep6 s))
    ∧ (hasShape s shape14dot3 = false → hasShape s shape8dot3end = false →
        hasShape s shape8sep6 = false → hasShape s shape8sep4 = true →
        guessWildcardOf s = .ok (.sub8sep4 s))
    ∧ (hasShape s shape14dot3 = false → hasShape s shape8dot3end = false →
        hasShape s shape8sep6 = false → hasShape s shape8sep4 = false →
        hasShape s shape14 = true → guessWildcardOf s = .ok (.sub14 s))
    ∧ (hasShape s shape14dot3 = false → hasShape s shape8dot3end = false →
        hasShape s shape8sep6 = false → hasShape s shape8sep4 = false →
        hasShape s shape14 = false → guessWildcardOf s = .error "NotImplementedError")
    ∧ guess_filename_wildcard ["20240101080000.024"] =
        .ok (.tpl "\x7binittime:%Y%m%d%H%M%S\x7d.\x7bfh:03d\x7d")
    ∧ hasShape "20240101080000.024" shape8dot3end = true
    ∧ hasShape "20240101080000.024" shape14 = true := by
  refine ⟨?_, ?_, ?_, ?_, ?_, ?_, by rfl, by decide, by decide⟩ <;>
    · intros
      simp only [guessWildcardOf, *]
      simp

/-- Witness for C3: "24010108.024" fails shape 1 but matches shape 2, so the
second template wins; "abc.txt" matches no shape and the call fails. -/
theorem guess_wildcard_priority_witness :
    guessWildcardOf "24010108.024" = .ok (.tpl "\x7binittime:%y%m%d%H\x7d.\x7bfh:03d\x7d")
    ∧ guessWildcardOf "abc.txt" = .error "NotImplementedError" := by
  have h1 := (guess_wildcard_priority "24010108.024").2.1 (by decide) (by decide)
  have h2 := (guess_wildcard_priority "abc.txt").2.2.2.2.2.1 (by decide) (by decide)
    (by decide) (by decide) (by decide)
  exact ⟨h1, h2⟩

/- ===================== Format dispatch (client.py, guess_interface_class) ===================== -/

/-- `str.upper` restricted to ASCII; MDFS filenames are ASCII. -/
def strUpper (s : String) : String :=
  ⟨s.data.map Char.toUpper⟩

/-- `str.endswith`. -/
def strEndsWith (s suf : String) : Bool :=
  suf.data.isSuffixOf s.data

/-- A UTF-8 continuation byte. -/
def isCont (b : Nat) : Bool :=
  0x80 ≤ b && b ≤ 0xBF

/-- Python `bytes.decode()` (strict UTF-8): byte list to code points, `none`
on invalid input (overlong encodings, surrogates and out-of-range lead bytes
rejected as CPython does). -/
def utf8Decode : List Nat → Option (List Nat)
  | [] => some []
  | b :: bs =>
    if b < 0x80 then (utf8Decode bs).map (b :: ·)
    else if 0xC2 ≤ b && b ≤ 0xDF then
      match bs with
      | c1 :: r =>
        if isCont c1 then (utf8Decode r).map (((b - 0xC0) * 0x40 + (c1 - 0x80)) :: ·)
        else Option.none
      | [] => Option.none
    else if 0xE0 ≤ b && b ≤ 0xEF then
      match bs with
      | c1 :: c2 :: r =>
        let lo1 := if b = 0xE0 then 0xA0 else 0x80
        let hi1 := if b = 0xED then 0x9F else 0xBF
        if lo1 ≤ c1 && c1 ≤ hi1 && isCont c2 then
          (utf8Decode r).map
            (((b - 0xE0) * 0x1000 + (c1 - 0x80) * 0x40 + (c2 - 0x80)) :: ·)
        else Option.none
      | _ => Option.none
    else if 0xF0 ≤ b && b ≤ 0xF4 then
      match bs with
      | c1 :: c2 :: c3 :: r =>
        let lo1 := if b = 0xF0 then 0x90 else 0x80
        let hi1 := if b = 0xF4 then 0x8F else 0xBF
        if lo1 ≤ c1 && c1 ≤ hi1 && isCont c2 && isCont c3 then
          (utf8Decode r).map
            (((b - 0xF0) * 0x40000 + (c1 - 0x80) * 0x1000
              + (c2 - 0x80) * 0x40 + (c3 - 0x80)) :: ·)
        else Option.none
      | _ => Option.none
    else Option.none

/-- Code points on which Python `str.split()` (no argument) splits. -/
def isPySpace (cp : Nat) : Bool :=
  (0x09 ≤ cp && cp ≤ 0x0D) || (0x1C ≤ cp && cp ≤ 0x1F) || cp == 0x20 || cp == 0x85
    || cp == 0xA0 || cp == 0x1680 || (0x2000 ≤ cp && cp ≤ 0x200A) || cp == 0x2028
    || cp == 0x2029 || cp == 0x202F || cp == 0x205F || cp == 0x3000

/-- Python `str.split()`: maximal runs of non-whitespace code points. -/
def splitTokens (cps : List Nat) : List (List Nat) :=
  (cps.splitOnP fun c => isPySpace c).filter fun t => !t.isEmpty

/-- Code points of an ASCII string literal. -/
def strCps (s : String) : List Nat :=
  s.data.map fun c => c.toNat

/-- `str.lower` on a code point, restricted to ASCII. -/
def asciiLowerCp (cp : Nat) : Nat :=
  if 0x41 ≤ cp && cp ≤ 0x5A then cp + 0x20 else cp

/-- `unpack('4sh', contents[:6])`: little-endian signed 16-bit type code. -/
def int16OfBytesLE (b0 b1 : Nat) : Int :=
  let v := b0 + 256 * b1
  if v < 32768 then (v : Int) else (v : Int) - 65536

/-- The interface class chosen by `MdfsClient.guess_interface_class`. -/
inductive FormatTag where
  | awx
  | latlon
  | mdfsGrid
  | mdfsStation
  | diamond (subtype : List Nat)
deriving DecidableEq

/-- The bytes of the binary magic `b"mdfs"`. -/
def mdfsMagic : List Nat := [0x6D, 0x64, 0x66, 0x73]

/-- The numbered Diamond decoder modules present in `pymdfs/diamond/`. -/
def diamondRegistry : List (List Nat) :=
  [strCps "1", strCps "2", strCps "3", strCps "4", strCps "5", strCps "7",
    strCps "8", strCps "11", strCps "14", strCps "16", strCps "31",
    strCps "41", strCps "42"]

/-- `MdfsClient.guess_interface_class` (client.py lines 136-177): extension
checks for the two raster formats, then the `mdfs` binary magic with type
codes 4 and 11 selecting the grid decoder and every other code the station
decoder, then the text fallback reading the first two whitespace-separated
tokens, dispatching discriminator `diamond` (case-insensitively) to the
registered numbered decoder, and otherwise raising
`NotImplementedError("Unsupported file format.")`. -/
def guess_interface_class (filename : String) (contents : List Nat) :
    Except String FormatTag :=
  if strEndsWith (strUpper filename) "AWX" then .ok .awx
  else if strEndsWith (strUpper filename) "LATLON" then .ok .latlon
  else
    match contents with
    | b0 :: b1 :: b2 :: b3 :: b4 :: b5 :: _ =>
      if [b0, b1, b2, b3] = mdfsMagic then
        if int16OfBytesLE b4 b5 = 4 ∨ int16OfBytesLE b4 b5 = 11 then .ok .mdfsGrid
        else .ok .mdfsStation
      else
        match utf8Decode contents with
        | Option.none => .error "UnicodeDecodeError"
        | some cps =>
          match splitTokens cps with
          | t1 :: t2 :: _ =>
            if t1.map asciiLowerCp = strCps "diamond" then
              if t2 ∈ diamondRegistry then .ok (.diamond t2)
              else .error "ModuleNotFoundError"
            else .error "NotImplementedError: Unsupported file format."
          | _ => .error "ValueError"
    | _ => .error "struct.error"

/-- Claim C7: `guess_interface_class` resolves the decoder in strict order:
filename extension for AWX then LATLON; else the 6-byte binary prefix, where
magic `mdfs` with type code 4 or 11 selects the grid decoder and every other
type code the station decoder; else the first two text tokens, where
discriminator `diamond` dispatches to the decoder registered for the numeric
subtype; otherwise classification fails with the unsupported-format error. -/
theorem guess_interface_class_order (filename : String) (contents : List Nat)
    (b0 b1 b2 b3 b4 b5 : Nat) (rest : List Nat) (cps t1 t2 : List Nat)
    (ts : List (List Nat)) :
    (strEndsWith (strUpper filename) "AWX" = true →
      guess_interface_class filename contents = .ok .awx)
    ∧ (strEndsWith (strUpper filename) "AWX" = false →
        strEndsWith (strUpper filename) "LATLON" = true →
      guess_interface_class filename contents = .ok .latlon)
    ∧ (strEndsWith (strUpper filename) "AWX" = false →
        strEndsWith (strUpper filename) "LATLON" = false →
        contents = b0 :: b1 :: b2 :: b3 :: b4 :: b5 :: rest →
        [b0, b1, b2, b3] = mdfsMagic →
        (int16OfBytesLE b4 b5 = 4 ∨ int16OfBytesLE b4 b5 = 11) →
      guess_interface_class filename contents = .ok .mdfsGrid)
    ∧ (strEndsWith (strUpper filename) "AWX" = false →
        strEndsWith (strUpper filename) "LATLON" = false →
        contents = b0 :: b1 :: b2 :: b3 :: b4 :: b5 :: rest →
        [b0, b1, b2, b3] = mdfsMagic →
        ¬(int16OfBytesLE b4 b5 = 4 ∨ int16OfBytesLE b4 b5 = 11) →
      guess_interface_class filename contents = .ok .mdfsStation)
    ∧ (strEndsWith (strUpper filename) "AWX" = false →
        strEndsWith (strUpper filename) "LATLON" = false →
        contents = b0 :: b1 :: b2 :: b3 :: b4 :: b5 :: rest →
        [b0, b1, b2, b3] ≠ mdfsMagic →
        utf8Decode contents = some cps →
        splitTokens cps = t1 :: t2 :: ts →
        t1.map asciiLowerCp = strCps "diamond" →
        t2 ∈ diamondRegistry →
      guess_interface_class filename contents = .ok (.diamond t2))
    ∧ (strEndsWith (strUpper filename) "AWX" = false →
        strEndsWith (strUpper filename) "LATLON" = false →
        contents = b0 :: b1 :: b2 :: b3 :: b4 :: b5 :: rest →
        [b0, b1, b2, b3] ≠ mdfsMagic →
        utf8Decode contents = some cps →
        splitTokens cps = t1 :: t2 :: ts →
        t1.map asciiLowerCp ≠ strCps "diamond" →
      guess_interface_class filename contents =
        .error "NotImplementedError: Unsupported file format.") := by
  refine ⟨?_, ?_, ?_, ?_, ?_, ?_⟩ <;>
    · intros
      subst_eqs
      simp only [guess_interface_class, *]
      simp [mdfsMagic, *]

/-- Witness for C7: one concrete buffer per dispatch branch. -/
theorem guess_interface_class_order_witness :
    guess_interface_class "sat.AWX" [0] = .ok .awx
    ∧ guess_interface_class "rain.LatLon" [0] = .ok .latlon
    ∧ guess_interface_class "f" [0x6D, 0x64, 0x66, 0x73, 11, 0, 9] = .ok .mdfsGrid
    ∧ guess_interface_class "f" [0x6D, 0x64, 0x66, 0x73, 3, 0, 9] = .ok .mdfsStation
    ∧ guess_interface_class "f" (strCps "Diamond 4 test") = .ok (.diamond (strCps "4"))
    ∧ guess_interface_class "f" (strCps "grads 4 test") =
        .error "NotImplementedError: Unsupported file format." := by
  have h1 := (guess_interface_class_order "sat.AWX" [0] 0 0 0 0 0 0 [] [] [] [] []).1
  have h2 := (guess_interface_class_order "rain.LatLon" [0] 0 0 0 0 0 0 [] [] [] [] []).2.1
  have h3 := (guess_interface_class_order "f" [0x6D, 0x64, 0x66, 0x73, 11, 0, 9]
    0x6D 0x64 0x66 0x73 11 0 [9] [] [] [] []).2.2.1
  have h4 := (guess_interface_class_order "f" [0x6D, 0x64, 0x66, 0x73, 3, 0, 9]
    0x6D 0x64 0x66 0x73 3 0 [9] [] [] [] []).2.2.2.1
  have h5 := (guess_interface_class_order "f" (strCps "Diamond 4 test")
    0x44 0x69 0x61 0x6D 0x6F 0x6E (strCps "d 4 test") (strCps "Diamond 4 test")
    (strCps "Diamond") (strCps "4") [strCps "test"]).2.2.2.2.1
  have h6 := (guess_interface_class_order "f" (strCps "grads 4 test")
    0x67 0x72 0x61 0x64 0x73 0x20 (strCps "4 test") (strCps "grads 4 test")
    (strCps "grads") (strCps "4") [strCps "test"]).2.2.2.2.2
  refine ⟨h1 (by decide), h2 (by decide) (by decide),
    h3 (by decide) (by decide) (by decide) (by decide) (by decide),
    h4 (by decide) (by decide) (by decide) (by decide) (by decide),
    h5 (by decide) (by decide) (by decide) (by decide) (by decide) (by decide)
      (by decide) (by decide),
    h6 (by decide) (by decide) (by decide) (by decide) (by decide) (by decide)
      (by decide)⟩

/- ===================== LatLon run-length decompression (latlon.py) ===================== -/

/-- numpy row-slice assignment `row[x : x+n] = src` (0 ≤ x): the addressed
slice is clipped to the row, and the assignment succeeds iff `src` has
exactly the slice's length or broadcasts from length 1. -/
def sliceAssign (row : List Int) (x n : Nat) (src : List Int) : Option (List Int) :=
  let sliceLen := min (x + n) row.length - min x row.length
  if src.length = sliceLen then
    some (row.take x ++ src ++ row.drop (x + n))
  else if src.length = 1 then
    some (row.take x ++ List.replicate sliceLen src.headI ++ row.drop (x + n))
  else Option.none

/-- The while loop of `LatLon.decompress` (latlon.py lines 133-139): read a
(row, col-start, run-length) triple, stop on a negative row or column or a
non-positive run length, otherwise overwrite `data[y, x:x+n]` with the next
`n` literal values and continue. Reading a triple from fewer than 3 remaining
values is the `ValueError` of tuple unpacking; a row index beyond the grid is
an `IndexError`. -/
def decompLoop (rows cols : Nat) : List Int → List (List Int) → Except String (List (List Int))
  | y :: x :: n :: buf, g =>
    if y < 0 ∨ x < 0 ∨ n ≤ 0 then .ok g
    else
      match g.get? y.toNat with
      | Option.none => .error "IndexError"
      | some row =>
        match sliceAssign row x.toNat n.toNat (buf.take n.toNat) with
        | Option.none => .error "ValueError"
        | some row2 => decompLoop rows cols (buf.drop n.toNat) (g.set y.toNat row2)
  | _, _ => .error "ValueError"
termination_by buf _ => buf.length
decreasing_by simp [List.length_drop]; omega

/-- `LatLon.decompress` (latlon.py lines 117-140): a rows × cols grid filled
with `int(head.nodata * head.amp + 0.5)` and then overwritten by the
run-length stream. -/
def LatLon.decompress (rows cols : Nat) (nodata : ℚ) (amp : Int) (buf : List Int) :
    Except String (List (List Int)) :=
  decompLoop rows cols buf
    (List.replicate rows (List.replicate cols (pyInt (nodata * (amp : ℚ) + 1/2))))

theorem pyInt_int_add_half (B : Int) (h : 0 ≤ B) :
    pyInt ((B : ℚ) + 1/2) = B := by
  have h2 : (0 : ℚ) ≤ (B : ℚ) + 1/2 := by positivity
  rw [pyInt, if_pos h2]
  rw [Int.floor_int_add]
  norm_num

/-- Counterexample to claim C5: with header nodata = 1 and amp = 2, the
decompressed background cell holds `int(nodata * amp + 0.5) = 2`, not the
header's nodata value 1 that the claim uses as the fill. -/
theorem latlon_decompress_fill_counterexample :
    LatLon.decompress 1 1 1 2 [-1, -1, 0] = .ok [[2]]
    ∧ ([[2]] : List (List Int)) ≠ [[1]] := by
  constructor
  · have hf : pyInt ((1 : ℚ) * ((2 : ℤ) : ℚ) + 1/2) = 2 := by
      rw [pyInt, if_pos (by norm_num)]
      norm_num
    rw [LatLon.decompress, hf]
    rw [decompLoop, if_pos (by decide)]
    rfl
  · decide

/-- Claim C5 as amended: `LatLon.decompress` first fills the rows × cols grid
with `int(nodata * amp + 0.5)` (the amp-scaled rounded background, equal to
the nodata value whenever nodata is a non-negative integer and amp = 1), then
overwrites each declared (row, col-start, run-length) slice in order with the
following literal values, and stops at the first triple with negative row,
negative column, or non-positive run length; on a 3 × 3 grid whose background
fill is B, the stream [(0,0,2), (v1,v2), (-1,-1,0)] yields
[[v1,v2,B],[B,B,B],[B,B,B]]. -/
theorem latlon_decompress_rle (rows cols : Nat) (nodata : ℚ) (amp : Int)
    (buf rest row : List Int) (y x n : Int) (g : List (List Int)) (B v1 v2 : Int) :
    (LatLon.decompress rows cols nodata amp buf =
        decompLoop rows cols buf
          (List.replicate rows (List.replicate cols (pyInt (nodata * (amp : ℚ) + 1/2)))))
    ∧ ((y < 0 ∨ x < 0 ∨ n ≤ 0) →
        decompLoop rows cols (y :: x :: n :: rest) g = .ok g)
    ∧ (0 ≤ y → 0 ≤ x → 0 < n → g.get? y.toNat = some row →
        x.toNat + n.toNat ≤ row.length → n.toNat ≤ rest.length →
        decompLoop rows cols (y :: x :: n :: rest) g =
          decompLoop rows cols (rest.drop n.toNat)
            (g.set y.toNat
              (row.take x.toNat ++ rest.take n.toNat ++ row.drop (x.toNat + n.toNat))))
    ∧ (0 ≤ B →
        LatLon.decompress 3 3 (B : ℚ) 1 [0, 0, 2, v1, v2, -1, -1, 0] =
          .ok [[v1, v2, B], [B, B, B], [B, B, B]]) := by
  refine ⟨rfl, ?_, ?_, ?_⟩
  · intro h
    rw [decompLoop, if_pos h]
  · intro hy hx hn hrow hxn hrest
    have hsrc : (rest.take n.toNat).length = n.toNat := by
      simp [List.length_take]
      omega
    have hslice : min (x.toNat + n.toNat) row.length - min x.toNat row.length = n.toNat := by
      omega
    rw [decompLoop, if_neg (by omega)]
    simp only [hrow]
    rw [sliceAssign]
    simp only [hsrc, hslice, if_pos rfl]
    simp
  · intro hB
    have hf : pyInt ((B : ℚ) * ((1 : ℤ) : ℚ) + 1/2) = B := by
      rw [show ((B : ℚ) * ((1 : ℤ) : ℚ) + 1/2) = (B : ℚ) + 1/2 by push_cast; ring]
      exact pyInt_int_add_half B hB
    rw [LatLon.decompress, hf]
    simp [decompLoop, sliceAssign]

/-- Witness for C5: the terminating triple leaves the grid unchanged, and the
3 × 3 example with background 5 and literals 7, 8 decodes as claimed. -/
theorem latlon_decompress_rle_witness :
    decompLoop 3 3 [-1, -1, 0] [[9, 9, 9]] = .ok [[9, 9, 9]]
    ∧ LatLon.decompress 3 3 (5 : ℚ) 1 [0, 0, 2, 7, 8, -1, -1, 0] =
        .ok [[7, 8, 5], [5, 5, 5], [5, 5, 5]] := by
  have h := latlon_decompress_rle 3 3 5 1 [0, 0, 2, 7, 8, -1, -1, 0] [] []
    (-1) (-1) 0 [[9, 9, 9]] 5 7 8
  exact ⟨h.2.1 (by decide), h.2.2.2 (by decide)⟩

/- ===================== Diamond5 indexed multi-track body (diamond/diamond5.py) ===================== -/

/-- Python list slice `l[a:b]`, with clipping and negative-index wrapping. -/
def pySlice (l : List α) (a b : Int) : List α :=
  let n : Int := l.length
  let a2 : Int := if a < 0 then max (n + a) 0 else min a n
  let b2 : Int := if b < 0 then max (n + b) 0 else min b n
  (l.drop a2.toNat).take (b2 - a2).toNat

/-- One track of a Diamond 5 body: the 5 index tokens
(stid, lon, lat, height, declared count) and the data rows. -/
structure D5Track where
  index : List Int
  rows : List (List Int)
deriving DecidableEq

/-- The while loop of `Diamond5.read` (diamond5.py lines 156-167), recursion
on the remaining count of index records out of `head.nrec`: read the 5 index
tokens `data[p:p+5]` (an `IndexError` when none remain), read
`data[p:p+nrec_irec]` data tokens where `nrec_irec` is the last index token,
reshape them to rows of the 6 record fields (a `ValueError` when the token
count is not a multiple of 6), and continue behind them. Tokens are modelled
as the numbers they parse to. -/
def d5Loop (data : List Int) : Nat → Int → Except String (List D5Track)
  | 0, _ => .ok []
  | irec + 1, p =>
    let recHead := pySlice data p (p + 5)
    match recHead.getLast? with
    | Option.none => .error "IndexError"
    | some nDecl =>
      let record := pySlice data (p + 5) (p + 5 + nDecl)
      if record.length % 6 ≠ 0 then .error "ValueError: cannot reshape"
      else
        match d5Loop data irec (p + 5 + nDecl) with
        | .error e => .error e
        | .ok rest => .ok (⟨recHead, reshapeRows (record.length / 6) 6 record⟩ :: rest)

/-- `Diamond5.read` after the 8 header tokens: run the loop for `head.nrec`
index records from cursor 0, then the
`unstructured_to_structured(np.array(indices), dtype_index)` conversion,
which fails unless the collected index rows form a non-ragged array of
exactly the 5 declared fields. -/
def diamond5Read (nrec : Nat) (body : List Int) : Except String (List D5Track) :=
  match d5Loop body nrec 0 with
  | .error e => .error e
  | .ok tracks =>
    if tracks.isEmpty then .error "ValueError: index array shape"
    else if tracks.all fun t => t.index.length = 5 then .ok tracks
    else .error "ValueError: index array shape"

/-- The token stream of a list of tracks: each index record immediately
followed by its data rows. -/
def d5Flatten (ts : List D5Track) : List Int :=
  (ts.map fun t => t.index ++ t.rows.flatten).flatten

/-- A well-formed multi-track body: 5 index tokens per track, 6 tokens per
data row, and the declared count (the last index token) equal to the number
of body tokens of the track. -/
def D5WellFormed (ts : List D5Track) : Prop :=
  ∀ t ∈ ts, t.index.length = 5 ∧ (∀ r ∈ t.rows, r.length = 6)
    ∧ t.index.getLast? = some ((6 : Int) * t.rows.length)

theorem pySlice_append (pre rest : List α) (k : Nat) :
    pySlice (pre ++ rest) (pre.length : Int) ((pre.length : Int) + k) = rest.take k := by
  unfold pySlice
  have hn : ((pre ++ rest).length : Int) = (pre.length : Int) + rest.length := by
    simp
  have ha : ¬((pre.length : Int) < 0) := by omega
  have hb : ¬((pre.length : Int) + k < 0) := by omega
  simp only [hn, if_neg ha, if_neg hb]
  have hmin1 : min (pre.length : Int) ((pre.length : Int) + rest.length) = pre.length := by
    omega
  have hmin2 : min ((pre.length : Int) + k) ((pre.length : Int) + rest.length)
      = (pre.length : Int) + min (k : Int) (rest.length : Int) := by
    omega
  rw [hmin1, hmin2]
  have hdrop : (pre ++ rest).drop ((pre.length : Int)).toNat = rest := by
    simp
  rw [hdrop]
  have htn : ((pre.length : Int) + min (k : Int) (rest.length : Int)
      - (pre.length : Int)).toNat = min k rest.length := by
    omega
  rw [htn]
  rcases Nat.le_total k rest.length with hk | hk
  · rw [min_eq_left hk]
  · rw [min_eq_right hk, List.take_length, List.take_of_length_le hk]

theorem reshapeRows_flatten_inv (rs : List (List α)) (c : Nat)
    (hr : ∀ r ∈ rs, r.length = c) :
    reshapeRows rs.length c rs.flatten = rs := by
  induction rs with
  | nil => rfl
  | cons r rs ih =>
    have hrl : r.length = c := hr r (List.mem_cons_self r rs)
    simp only [List.length_cons, List.flatten_cons, reshapeRows]
    rw [← hrl, List.take_left, List.drop_left, hrl]
    rw [ih fun r2 h2 => hr r2 (List.mem_cons_of_mem r h2)]

theorem flatten_length_uniform (rs : List (List α)) (c : Nat)
    (hr : ∀ r ∈ rs, r.length = c) :
    rs.flatten.length = rs.length * c := by
  induction rs with
  | nil => simp
  | cons r rs ih =>
    simp only [List.flatten_cons, List.length_append, List.length_cons]
    rw [hr r (List.mem_cons_self r rs), ih fun x hx => hr x (List.mem_cons_of_mem r hx)]
    ring

theorem pySlice_append2 (l pre rest : List α) (a b : Int) (k : Nat)
    (hl : l = pre ++ rest) (ha : a = (pre.length : Int)) (hb : b = a + k) :
    pySlice l a b = rest.take k := by
  subst hl ha hb
  exact pySlice_append pre rest k

theorem d5Loop_wellformed (ts : List D5Track) :
    ∀ (pre : List Int), D5WellFormed ts →
      d5Loop (pre ++ d5Flatten ts) ts.length (pre.length : Int) = .ok ts := by
  induction ts with
  | nil => intro pre _; rfl
  | cons t ts ih =>
    intro pre hwf
    obtain ⟨hidx, hrows, hlast⟩ := hwf t (List.mem_cons_self t ts)
    have hwf2 : D5WellFormed ts := fun u hu => hwf u (List.mem_cons_of_mem t hu)
    have hrl : t.rows.flatten.length = t.rows.length * 6 :=
      flatten_length_uniform t.rows 6 hrows
    have hhead : pySlice (pre ++ d5Flatten (t :: ts)) (pre.length : Int)
        ((pre.length : Int) + 5) = t.index := by
      rw [pySlice_append2 (pre ++ d5Flatten (t :: ts)) pre
          (t.index ++ (t.rows.flatten ++ d5Flatten ts)) (pre.length : Int)
          ((pre.length : Int) + 5) 5 (by simp [d5Flatten]) rfl (by push_cast; ring)]
      rw [← hidx, List.take_left]
    have hrec : pySlice (pre ++ d5Flatten (t :: ts)) ((pre.length : Int) + 5)
        ((pre.length : Int) + 5 + (6 : Int) * (t.rows.length : Int)) = t.rows.flatten := by
      rw [pySlice_append2 (pre ++ d5Flatten (t :: ts)) (pre ++ t.index)
          (t.rows.flatten ++ d5Flatten ts) ((pre.length : Int) + 5)
          ((pre.length : Int) + 5 + (6 : Int) * (t.rows.length : Int))
          t.rows.flatten.length (by simp [d5Flatten]) (by simp [hidx])
          (by rw [hrl]; push_cast; ring)]
      exact List.take_left _ _
    simp only [List.length_cons, d5Loop]
    rw [hhead, hlast]
    simp only []
    rw [hrec]
    have hmod : ¬(t.rows.flatten.length % 6 ≠ 0) := by
      rw [hrl]
      simp [Nat.mul_mod_left]
    rw [if_neg hmod]
    have hdata2 : pre ++ d5Flatten (t :: ts)
        = (pre ++ (t.index ++ t.rows.flatten)) ++ d5Flatten ts := by
      simp [d5Flatten]
    have hcur : (pre.length : Int) + 5 + (6 : Int) * (t.rows.length : Int)
        = ((pre ++ (t.index ++ t.rows.flatten)).length : Int) := by
      simp only [List.length_append, hidx, hrl]
      push_cast
      ring
    rw [hdata2, hcur, ih (pre ++ (t.index ++ t.rows.flatten)) hwf2]
    have hdiv : t.rows.flatten.length / 6 = t.rows.length := by
      rw [hrl]
      exact Nat.mul_div_cancel _ (by norm_num)
    rw [hdiv, reshapeRows_flatten_inv t.rows 6 hrows]

theorem pySlice_beyond (l : List α) (a b : Int) (ha : (l.length : Int) ≤ a)
    (ha0 : 0 ≤ a) : pySlice l a b = [] := by
  simp only [pySlice]
  rw [if_neg (show ¬(a < 0) by omega), min_eq_right ha, Int.toNat_natCast,
    List.drop_length]
  simp

theorem d5Loop_overrun (idx tail : List Int) (nDecl : Int) (irec : Nat)
    (hidx : idx.length = 5) (hlast : idx.getLast? = some nDecl)
    (hover : (tail.length : Int) < nDecl) :
    (tail.length % 6 = 0 →
      d5Loop (idx ++ tail) 1 0 = .ok [⟨idx, reshapeRows (tail.length / 6) 6 tail⟩])
    ∧ (tail.length % 6 ≠ 0 →
      d5Loop (idx ++ tail) 1 0 = .error "ValueError: cannot reshape")
    ∧ (tail.length % 6 = 0 →
      d5Loop (idx ++ tail) (irec + 2) 0 = .error "IndexError") := by
  have hhead : pySlice (idx ++ tail) 0 (0 + 5) = idx := by
    rw [pySlice_append2 (idx ++ tail) [] (idx ++ tail) 0 (0 + 5) 5 (by simp)
      (by simp) (by norm_num)]
    rw [← hidx, List.take_left]
  have hrec : pySlice (idx ++ tail) (0 + 5) (0 + 5 + nDecl) = tail := by
    rw [pySlice_append2 (idx ++ tail) idx tail (0 + 5) (0 + 5 + nDecl) nDecl.toNat
      rfl (by simp [hidx]) (by omega)]
    exact List.take_of_length_le (by omega)
  refine ⟨?_, ?_, ?_⟩
  · intro h6
    simp only [d5Loop]
    rw [hhead, hlast]
    simp only []
    rw [hrec]
    simp [h6]
  · intro h6
    simp only [d5Loop]
    rw [hhead, hlast]
    simp only []
    rw [hrec]
    simp [h6]
  · intro h6
    simp only [d5Loop]
    rw [hhead, hlast]
    simp only []
    rw [hrec]
    rw [if_neg (by simp [h6])]
    have hbeyond : pySlice (idx ++ tail) (0 + 5 + nDecl) (0 + 5 + nDecl + 5) = [] := by
      apply pySlice_beyond
      · simp only [List.length_append, hidx]
        push_cast
        omega
      · omega
    rw [hbeyond]
    simp

/-- Counterexample to claim C8: an index record declaring `nrec = 3` followed
by 3 six-field data rows (the spec's example, 18 tokens). The claim predicts
that exactly 3 data rows are consumed and decoding succeeds; `Diamond5.read`
instead consumes `nrec` as a token count, reads the 3 tokens `[1, 2, 3]`, and
fails to reshape them into 6-field rows. -/
theorem diamond5_nrec_is_tokens_counterexample :
    diamond5Read 1 ([1001, 120, 30, 100, 3] ++
        [1, 2, 3, 4, 5, 6, 7, 8, 9, 10, 11, 12, 13, 14, 15, 16, 17, 18]) =
      .error "ValueError: cannot reshape"
    ∧ (Except.error "ValueError: cannot reshape" :
        Except String (List D5Track)) ≠
      .ok [⟨[1001, 120, 30, 100, 3],
        [[1, 2, 3, 4, 5, 6], [7, 8, 9, 10, 11, 12], [13, 14, 15, 16, 17, 18]]⟩] := by
  constructor
  · rfl
  · simp

/-- Claim C8 as amended: in `Diamond5.read`, each index record's declared
count `nrec` is a count of body tokens, not data rows: exactly `nrec` tokens
(`nrec / 6` six-field data rows) are consumed before the next index record is
read, and on a well-formed body the tracks decode exactly. A declared count
that overruns the remaining tokens is fatal — a reshape `ValueError` when the
truncated remainder is not a multiple of 6, an `IndexError` on the following
index read otherwise — except when the overrun occurs in the final index
record and the remainder is a multiple of 6, in which case the read silently
truncates to the remaining rows. -/
theorem diamond5_token_consumption (ts : List D5Track) (idx tail : List Int)
    (nDecl : Int) (irec : Nat) (hwf : D5WellFormed ts) (hne : ts ≠ [])
    (hidx : idx.length = 5) (hlast : idx.getLast? = some nDecl)
    (hover : (tail.length : Int) < nDecl) :
    (diamond5Read ts.length (d5Flatten ts) = .ok ts)
    ∧ (tail.length % 6 = 0 →
        diamond5Read 1 (idx ++ tail) =
          .ok [⟨idx, reshapeRows (tail.length / 6) 6 tail⟩])
    ∧ (tail.length % 6 ≠ 0 →
        diamond5Read 1 (idx ++ tail) = .error "ValueError: cannot reshape")
    ∧ (tail.length % 6 = 0 →
        diamond5Read (irec + 2) (idx ++ tail) = .error "IndexError") := by
  have hov := d5Loop_overrun idx tail nDecl irec hidx hlast hover
  refine ⟨?_, ?_, ?_, ?_⟩
  · have hloop := d5Loop_wellformed ts [] hwf
    simp only [List.nil_append, List.length_nil, Nat.cast_zero] at hloop
    rw [diamond5Read]
    simp only [hloop]
    rw [if_neg (by simp [List.isEmpty_iff, hne])]
    rw [if_pos (by
      simp only [List.all_eq_true, decide_eq_true_eq]
      exact fun t ht => ((hwf t ht).1))]
  · intro h6
    rw [diamond5Read, hov.1 h6]
    simp [hidx]
  · intro h6
    rw [diamond5Read, hov.2.1 h6]
  · intro h6
    rw [diamond5Read, hov.2.2 h6]

/-- Witness for C8: a well-formed single track with `nrec = 12` tokens
(2 rows) decodes exactly; with only 6 tokens remaining the same declaration
silently truncates to 1 row when final, raises `IndexError` when another
index record is expected, and raises the reshape error when the remainder is
not a multiple of 6. -/
theorem diamond5_token_consumption_witness :
    diamond5Read 1 (d5Flatten [⟨[1001, 120, 30, 100, 12],
        [[1, 2, 3, 4, 5, 6], [7, 8, 9, 10, 11, 12]]⟩]) =
      .ok [⟨[1001, 120, 30, 100, 12], [[1, 2, 3, 4, 5, 6], [7, 8, 9, 10, 11, 12]]⟩]
    ∧ diamond5Read 1 ([1001, 120, 30, 100, 12] ++ [1, 2, 3, 4, 5, 6]) =
        .ok [⟨[1001, 120, 30, 100, 12], [[1, 2, 3, 4, 5, 6]]⟩]
    ∧ diamond5Read 2 ([1001, 120, 30, 100, 12] ++ [1, 2, 3, 4, 5, 6]) =
        .error "IndexError"
    ∧ diamond5Read 1 ([1001, 120, 30, 100, 12] ++ [1, 2, 3]) =
        .error "ValueError: cannot reshape" := by
  have h1 := diamond5_token_consumption
    [⟨[1001, 120, 30, 100, 12], [[1, 2, 3, 4, 5, 6], [7, 8, 9, 10, 11, 12]]⟩]
    [1001, 120, 30, 100, 12] [1, 2, 3, 4, 5, 6] 12 0
    (by
      intro t ht
      simp only [List.mem_singleton] at ht
      subst ht
      refine ⟨rfl, ?_, rfl⟩
      intro r hr
      simp only [List.mem_cons, List.mem_singleton] at hr
      rcases hr with h | h | h
      · subst h; rfl
      · subst h; rfl
      · cases h)
    (by simp) rfl rfl (by norm_num)
  have h2 := diamond5_token_consumption
    [⟨[1001, 120, 30, 100, 12], [[1, 2, 3, 4, 5, 6], [7, 8, 9, 10, 11, 12]]⟩]
    [1001, 120, 30, 100, 12] [1, 2, 3] 12 0
    (by
      intro t ht
      simp only [List.mem_singleton] at ht
      subst ht
      refine ⟨rfl, ?_, rfl⟩
      intro r hr
      simp only [List.mem_cons, List.mem_singleton] at hr
      rcases hr with h | h | h
      · subst h; rfl
      · subst h; rfl
      · cases h)
    (by simp) rfl rfl (by norm_num)
  refine ⟨h1.1, ?_, ?_, h2.2.2.1 (by norm_num)⟩
  · have := h1.2.1 (by norm_num)
    rw [this]
    rfl
  · exact h1.2.2.2 (by norm_num)

/- ===================== Gridded sel latitude slice swap (mdfs_grid_data.py, latlon.py, diamond4.py) ===================== -/

/-- pandas `Index.is_monotonic_decreasing`: each consecutive pair is
non-increasing. -/
def isMonotonicDecreasing : List ℚ → Bool
  | a :: b :: r => decide (b ≤ a) && isMonotonicDecreasing (b :: r)
  | _ => true

/-- A Python `slice(start, stop, step)` object over coordinates. -/
structure PySliceObj where
  start : Option ℚ
  stop : Option ℚ
  step : Option ℚ
deriving DecidableEq

/-- The `lat` keyword argument of a gridded `sel` call. -/
inductive LatArg where
  | absent
  | scalar (q : ℚ)
  | slc (s : PySliceObj)
deriving DecidableEq

/-- The latitude-slice rewrite shared verbatim by `MdfsGridData.sel`
(mdfs_grid_data.py lines 76-79), `LatLon.sel` (latlon.py lines 81-84) and
`Diamond4.sel` (diamond4.py lines 93-96): when the decoded dataset's `lat`
index is monotonically decreasing and `lat` was passed as a slice, replace it
by `slice(lat.stop, lat.start, lat.step)` before `self._ds.sel(**kwargs)`;
in every other case the argument reaches `sel` unchanged. -/
def selLatKwarg (lats : List ℚ) (lat : LatArg) : LatArg :=
  if isMonotonicDecreasing lats then
    match lat with
    | .slc s => .slc ⟨s.stop, s.start, s.step⟩
    | a => a
  else lat

/-- Claim C9: on a monotonically decreasing latitude axis a `lat` slice has
its start and stop bounds swapped (`slice(stop, start, step)`) before
coordinate selection; on an axis that is not monotonically decreasing — in
particular any strictly increasing axis with at least two points — the slice
is passed through unchanged, as is any non-slice argument. -/
theorem grid_sel_lat_slice_swap (lats : List ℚ) (s : PySliceObj) (lat : LatArg) (q : ℚ) :
    (isMonotonicDecreasing lats = true →
      selLatKwarg lats (.slc s) = .slc ⟨s.stop, s.start, s.step⟩)
    ∧ (isMonotonicDecreasing lats = false → selLatKwarg lats lat = lat)
    ∧ (List.Chain' (· < ·) lats → 2 ≤ lats.length →
        isMonotonicDecreasing lats = false)
    ∧ (selLatKwarg lats (.scalar q) = .scalar q)
    ∧ (selLatKwarg lats .absent = .absent) := by
  refine ⟨?_, ?_, ?_, ?_, ?_⟩
  · intro h
    simp [selLatKwarg, h]
  · intro h
    simp [selLatKwarg, h]
  · intro hchain hlen
    match lats, hchain with
    | a :: b :: r, hchain =>
      have hab : a < b := (List.chain'_cons.mp hchain).1
      simp [isMonotonicDecreasing, not_le.mpr hab]
  · by_cases h : isMonotonicDecreasing lats <;> simp [selLatKwarg, h]
  · by_cases h : isMonotonicDecreasing lats <;> simp [selLatKwarg, h]

/-- Witness for C9: the descending axis [30, 20, 10] swaps the bounds of
`slice(10, 30)`; the ascending axis [10, 20, 30] passes it through. -/
theorem grid_sel_lat_slice_swap_witness :
    selLatKwarg [30, 20, 10] (.slc ⟨some 10, some 30, Option.none⟩) =
      .slc ⟨some 30, some 10, Option.none⟩
    ∧ selLatKwarg [10, 20, 30] (.slc ⟨some 10, some 30, Option.none⟩) =
      .slc ⟨some 10, some 30, Option.none⟩ := by
  have h1 := (grid_sel_lat_slice_swap [30, 20, 10] ⟨some 10, some 30, Option.none⟩
    (.slc ⟨some 10, some 30, Option.none⟩) 0).1 (by decide)
  have h2 := (grid_sel_lat_slice_swap [10, 20, 30] ⟨some 10, some 30, Option.none⟩
    (.slc ⟨some 10, some 30, Option.none⟩) 0).2.1 (by decide)
  exact ⟨h1, h2⟩

/- ===================== Missing-value mask (mdfs_grid_data.py, diamond4.py to_xarray) ===================== -/

/-- `data.where(data == missing_value)` on one grid value: keep the value
when it equals the mask value, otherwise NaN (modelled as `none`). -/
def whereEqVal (m v : ℚ) : Option ℚ :=
  if v = m then some v else Option.none

/-- The missing-value handling of `MdfsGridData.to_xarray`
(mdfs_grid_data.py lines 128-131) and `Diamond4.to_xarray` (diamond4.py
lines 209-211): when `missing_value` is set, apply
`data.where(data == missing_value)` pointwise; when it is `None`, pass the
decoded grid through unchanged. -/
def setMaskAndAttrs (mv : Option ℚ) (g : List (List ℚ)) : List (List (Option ℚ)) :=
  match mv with
  | Option.none => g.map fun row => row.map some
  | some m => g.map fun row => row.map (whereEqVal m)

/-- Claim C10: with `missing_value = some m` the produced array keeps exactly
the grid points whose value equals `m` and replaces every other point with
NaN (the mask is `data.where(data == missing_value)`, not `!=`); with
`missing_value = None` the decoded values pass through unchanged. -/
theorem to_xarray_missing_value_mask (m : ℚ) (g : List (List ℚ)) (i j : Nat) :
    ((setMaskAndAttrs (some m) g)[i]?.bind fun row => row[j]?)
      = ((g[i]?.bind fun row => row[j]?).map fun v =>
          if v = m then some v else Option.none)
    ∧ setMaskAndAttrs Option.none g = g.map fun row => row.map some := by
  constructor
  · simp only [setMaskAndAttrs, List.getElem?_map]
    cases hg : g[i]? with
    | none => rfl
    | some row =>
      show (row.map (whereEqVal m))[j]? = Option.map _ row[j]?
      rw [List.getElem?_map]
      cases hr : row[j]? with
      | none => rfl
      | some v => simp [whereEqVal]
  · rfl
